import Mathlib

/-!
Verification development for the OneGeo well-log backend
(`backend/services` + `backend/dao`).  The Python sources are embedded
shallowly: every definition below mirrors one Python function; numeric
values are modelled exactly (Python floats as a tagged type over ℚ plus
the special values NaN/±∞), database tables as Lean lists, and Python
exceptions as `Except`.

The rational operations of Batteries are restored to their default
reducibility so that concrete runs of the embedded code can be settled
by `decide` (kernel evaluation; the kernel ignores reducibility
attributes anyway).
-/

set_option allowUnsafeReducibility true
attribute [semireducible] Rat.mul Rat.add Rat.sub Rat.inv

set_option maxRecDepth 100000

/-- Model of a Python float as stored in LAS curve data and in the
`curves` table: either a finite value (modelled exactly as a rational),
NaN, or one of the two infinities. -/
inductive PyFloat where
  | fin (q : ℚ)
  | nan
  | inf
  | ninf
deriving DecidableEq, Repr

/-- Python's `x != x` NaN test (`float` NaN is the only value not equal
to itself): mirrors the check `depth_val != depth_val` in
`LASParserService.extract_curves`. -/
def PyFloat.isNan : PyFloat → Bool
  | .nan => true
  | _ => false

/-- IEEE-style `<=` on floats, used for the SQL range filter and the
ordering of `ORDER BY depth` / Python `sorted`: NaN compares false
against everything. -/
def PyFloat.le : PyFloat → PyFloat → Bool
  | .nan, _ => false
  | _, .nan => false
  | .ninf, _ => true
  | _, .ninf => false
  | _, .inf => true
  | .inf, _ => false
  | .fin a, .fin b => a ≤ b

/-- Python's `str(v) in ("nan", "1e+30", "1e+31")` test from
`LASParserService.extract_curves` line 58: the only float values whose
`str` rendering is one of those three tokens are NaN (rendered "nan",
including negative NaN), 1e30 and 1e31. -/
def PyFloat.strIsNullToken : PyFloat → Bool
  | .nan => true
  | .fin q =>
    q = (1000000000000000000000000000000 : ℚ) ∨ q = (10000000000000000000000000000000 : ℚ)
  | _ => false

/-- One row of the `curves` table (`models/curve.py`), and equally one
element of the list returned by `LASParserService.extract_curves` (the
service builds `Curve` model instances directly).  The autoincrement
`id` column plays no role in any service and is omitted. -/
structure Curve where
  well_id : ℕ
  depth : PyFloat
  curve_name : String
  value : Option PyFloat
deriving DecidableEq, Repr

/-- One declared curve of a parsed LAS document: its mnemonic together
with its data column (`lasio` exposes each curve's samples as a float
array, so every cell is a float — possibly NaN or ±∞). -/
structure LASCurve where
  mnemonic : String
  data : List PyFloat
deriving DecidableEq, Repr

/-- A parsed LAS document as `LASParserService` consumes it: the list of
declared curves (the first one is the depth index) and the optional
trimmed-to-be well-name metadata value ("" models a falsy value). -/
structure ParsedLAS where
  curves : List LASCurve
  wellField : Option String
deriving DecidableEq, Repr

deriving instance DecidableEq for Except

/-- Python's `str.strip()`: drop leading and trailing whitespace
characters. -/
def pyStrip (s : String) : String :=
  String.mk (((s.data.dropWhile Char.isWhitespace).reverse.dropWhile Char.isWhitespace).reverse)

/-- Dictionary-style curve lookup `las[name]` (first declared curve with
the given mnemonic).  In `extract_curves` the looked-up names always
come from the curve list itself, so the lookup never misses there. -/
def lasGet (doc : ParsedLAS) (name : String) : Option (List PyFloat) :=
  (doc.curves.find? (fun c => c.mnemonic = name)).map (·.data)

/-- Embedding of `LASParserService.get_well_name`: the trimmed declared
well name, falling back to the literal "Unknown Well" when the field is
absent or falsy. -/
def get_well_name (doc : ParsedLAS) : String :=
  match doc.wellField with
  | some s => if s ≠ "" then pyStrip s else "Unknown Well"
  | none => "Unknown Well"

/-- Embedding of the inner row loop of `LASParserService.extract_curves`
(lines 52-73) for one non-depth curve: zip the depth column with the
curve's value column; skip the row when the depth is NaN (the
`depth_val != depth_val` continue); the value becomes `none` exactly
when Python's `str(v)` is one of the null tokens "nan"/"1e+30"/"1e+31"
(the data cells are floats, so `float(d)` / `float(v)` never raises and
`v is not None` always holds).  A kept row always emits a sample, with
the curve name trimmed. -/
def extractRows (wid : ℕ) (cname : String) (dd vd : List PyFloat) : List Curve :=
  (dd.zip vd).filterMap (fun dv =>
    if dv.1.isNan then none
    else some { well_id := wid, depth := dv.1, curve_name := pyStrip cname,
                value := if dv.2.strIsNullToken then none else some dv.2 })

/-- Embedding of `LASParserService.extract_curves`: empty curve list
gives no samples; otherwise curve 0 supplies the depth index and every
later curve contributes one sample per zipped row via `extractRows`,
with both columns fetched by mnemonic lookup (`las[depth_name]`,
`las[curve_name]`); a failed lookup skips the curve (the source's
`if depth_data is None or value_data is None: continue`). -/
def extract_curves (doc : ParsedLAS) (wid : ℕ) : List Curve :=
  match doc.curves with
  | [] => []
  | c0 :: _ =>
    (doc.curves.enum.drop 1).flatMap (fun ic =>
      match lasGet doc c0.mnemonic, lasGet doc ic.2.mnemonic with
      | some dd, some vd => extractRows wid ic.2.mnemonic dd vd
      | _, _ => [])

/-- Modelled from the spec: the LAS parsing library (`lasio`, an
external dependency whose code is not under `src/`) substitutes every
data cell equal to the file's declared NULL sentinel (commonly
`-999.25`) with NaN while reading, before `extract_curves` ever sees
the arrays — this is the "common LAS null values `-999.25`-style"
normalization of spec §4.1. -/
def applyNullSubst (nullVal : ℚ) (doc : ParsedLAS) : ParsedLAS :=
  { doc with curves := doc.curves.map (fun c =>
      { c with data := c.data.map (fun v => if v = .fin nullVal then .nan else v) }) }

/-- One row of the `wells` table (`models/well.py`): autoincrement id and
name (`created_at` plays no role in the embedded services). -/
structure Well where
  id : ℕ
  name : String
deriving DecidableEq, Repr

/-- One row of the `files` table (`models/file.py`), restricted to the
columns the embedded services read or write (`s3_url`, `file_name`,
`status`, `is_important` are opaque to every claim). -/
structure FileRec where
  id : ℕ
  well_id : ℕ
  processed : Bool
deriving DecidableEq, Repr

/-- The committed relational-store state: the three tables plus the
autoincrement counters for the two id columns the services allocate. -/
structure DB where
  wells : List Well
  files : List FileRec
  samples : List Curve
  nextWellId : ℕ
  nextFileId : ℕ
deriving DecidableEq, Repr

/-- Embedding of `WellDAO.get_by_id` (`Well.query.get`). -/
def WellDAO_get_by_id (db : DB) (well_id : ℕ) : Option Well :=
  db.wells.find? (fun w => w.id == well_id)

/-- Embedding of `WellDAO.get_by_name`
(`Well.query.filter_by(name=name).first()`): first row in table order. -/
def WellDAO_get_by_name (db : DB) (name : String) : Option Well :=
  db.wells.find? (fun w => w.name == name)

/-- Embedding of `WellDAO.create`: insert a new well row (autoincrement
id) and commit; returns the created well and the new state. -/
def WellDAO_create (db : DB) (name : String) : Well × DB :=
  let w : Well := { id := db.nextWellId, name := name }
  (w, { db with wells := db.wells ++ [w], nextWellId := db.nextWellId + 1 })

/-- Embedding of `WellDAO.delete_by_id` (state effect only; the
found/not-found boolean result is unused by the embedded callers). -/
def WellDAO_delete_by_id (db : DB) (well_id : ℕ) : DB :=
  { db with wells := db.wells.filter (fun w => !(w.id == well_id)) }

/-- Embedding of `CurveDAO.delete_by_well_id`: removes every sample of
the well and commits immediately (its own `db.session.commit()`). -/
def CurveDAO_delete_by_well_id (db : DB) (well_id : ℕ) : DB :=
  { db with samples := db.samples.filter (fun s => !(s.well_id == well_id)) }

/-- Committed state effect of `CurveDAO.bulk_insert`: after the single
final commit all rows are appended in order; an aborted call leaves the
state unchanged (no intermediate commit exists). The event trace of
the same function is `bulk_insert_events` below. -/
def CurveDAO_bulk_insert_state (db : DB) (curves : List Curve) : DB :=
  { db with samples := db.samples ++ curves }

/-- Embedding of `FileDAO.get_by_id`. -/
def FileDAO_get_by_id (db : DB) (file_id : ℕ) : Option FileRec :=
  db.files.find? (fun f => f.id == file_id)

/-- Embedding of `FileDAO.get_by_well_id` (the `uploaded_at` ordering is
irrelevant to the embedded caller, which only tests emptiness). -/
def FileDAO_get_by_well_id (db : DB) (well_id : ℕ) : List FileRec :=
  db.files.filter (fun f => f.well_id == well_id)

/-- Embedding of `FileDAO.create` restricted to the modelled columns. -/
def FileDAO_create (db : DB) (well_id : ℕ) (processed : Bool) : DB :=
  { db with files := db.files ++ [{ id := db.nextFileId, well_id := well_id, processed := processed }],
            nextFileId := db.nextFileId + 1 }

/-- Embedding of `FileDAO.update_file` as called by
`process_existing_file` (sets `well_id` and `processed`). -/
def FileDAO_update_file (db : DB) (file_id : ℕ) (well_id : ℕ) (processed : Bool) : DB :=
  { db with files := db.files.map (fun f =>
      if f.id == file_id then { f with well_id := well_id, processed := processed } else f) }

/-- Embedding of `CurveDAO.get_by_well_and_depth_range`: filter the
samples table to the well and the inclusive depth window, restricted to
the given curve names unless the list is falsy (empty — `if
curve_names:` — in which case no name filter applies), then `ORDER BY
depth` ascending, modelled as a stable sort on the filtered rows in
table order. -/
def get_by_well_and_depth_range (db : DB) (well_id : ℕ) (depth_min depth_max : PyFloat)
    (curve_names : List String) : List Curve :=
  (db.samples.filter (fun s =>
      s.well_id == well_id && depth_min.le s.depth && s.depth.le depth_max &&
        (curve_names.isEmpty || curve_names.contains s.curve_name))).insertionSort
    (fun a b => a.depth.le b.depth)

/-- Alias for `BATCH_SIZE` in `dao/curve_dao.py`. -/
def BATCH_SIZE : ℕ := 10000

/-- Observable events issued by `CurveDAO.bulk_insert`, in order: a
`bulk_insert_mappings` call with the number of rows of the chunk, a
progress-callback invocation with its two arguments, and the final
`db.session.commit()`. -/
inductive DBEvent where
  | insertChunk (rows : ℕ)
  | progress (done total : ℕ)
  | commit
deriving DecidableEq, Repr

/-- Event trace of `CurveDAO.bulk_insert`: `total = len(curves)`; if
zero, return before doing anything (no commit); otherwise, for each `i
in range(0, total, BATCH_SIZE)` insert the slice `curves[i : i +
BATCH_SIZE]` and — when a callback was supplied (`cb`) — report
`min(i + len(batch), total)` of `total`; one commit after the loop. -/
def bulk_insert_events (curves : List Curve) (cb : Bool) : List DBEvent :=
  let total := curves.length
  if total = 0 then []
  else
    ((List.range' 0 ((total + BATCH_SIZE - 1) / BATCH_SIZE) BATCH_SIZE).flatMap (fun i =>
      let batch := (curves.drop i).take BATCH_SIZE
      DBEvent.insertChunk batch.length ::
        (if cb then [DBEvent.progress (min (i + batch.length) total) total] else []))) ++
      [DBEvent.commit]

/-- Arguments of the progress-callback invocations of a trace, in
order. -/
def progressArgs (t : List DBEvent) : List (ℕ × ℕ) :=
  t.filterMap (fun e => match e with
    | .progress a b => some (a, b)
    | _ => none)

/-- Row counts of the `bulk_insert_mappings` calls of a trace, in
order. -/
def insertSizes (t : List DBEvent) : List ℕ :=
  t.filterMap (fun e => match e with
    | .insertChunk n => some n
    | _ => none)

/-- Python exceptions that the embedded visualization code can raise. -/
inductive PyErr where
  | indexError
deriving DecidableEq, Repr

/-- The `series` dictionary of `VisualizationService.get_curve_data`,
as an insertion-ordered association list from curve name to the value
array being built (Python dict preserves insertion order). -/
abbrev SeriesMap := List (String × List (Option PyFloat))

/-- Dictionary read without default-insertion (`series.get(cn, ...)`
and the read side of `defaultdict` access): the first binding, if
any. -/
def smGet? (s : SeriesMap) (k : String) : Option (List (Option PyFloat)) :=
  (s.find? (fun p => p.1 = k)).map (·.2)

/-- Read of `defaultdict(list)`: a missing key yields the empty list
(which the write below then binds). -/
def smGetD (s : SeriesMap) (k : String) : List (Option PyFloat) :=
  (smGet? s k).getD []

/-- Store a value under a key: replace the first binding, or append a
new binding (insertion order) when the key is absent. -/
def smSet (s : SeriesMap) (k : String) (v : List (Option PyFloat)) : SeriesMap :=
  match s with
  | [] => [(k, v)]
  | p :: rest => if p.1 = k then (k, v) :: rest else p :: smSet rest k v

/-- The pre-initialization double loop of `get_curve_data` lines 30-32:
`for _ in depth_set: for cn in curve_names: series[cn].append(None)`. -/
def initSeries (depth_set : List PyFloat) (curve_names : List String) : SeriesMap :=
  depth_set.foldl
    (fun s _ => curve_names.foldl (fun s cn => smSet s cn (smGetD s cn ++ [none])) s)
    []

/-- The record loop of `get_curve_data` lines 33-35: for each returned
row, `idx = depth_map[r.depth]` (the dict built from the enumerated
distinct sorted depths, i.e. the index of the row's depth in
`depth_set` — the lookup never misses because every row's depth is in
`depth_set`) and then `series[r.curve_name][idx] = r.value`, which
raises `IndexError` when the array under that key (empty for a fresh
`defaultdict` key) is not long enough. -/
def assignRecords (records : List Curve) (depth_set : List PyFloat) (s : SeriesMap) :
    Except PyErr SeriesMap :=
  match records with
  | [] => .ok s
  | r :: rest =>
    let idx := depth_set.indexOf r.depth
    let cur := smGetD s r.curve_name
    if idx < cur.length then
      assignRecords rest depth_set (smSet s r.curve_name (cur.set idx r.value))
    else .error .indexError

/-- Return value of `VisualizationService.get_curve_data`: the sorted
distinct-depth axis under the "depth" key plus one entry per requested
curve name, in request order. -/
structure CurveData where
  depth : List PyFloat
  series : List (String × List (Option PyFloat))
deriving DecidableEq, Repr

/-- Embedding of `VisualizationService.get_curve_data`: `None` for an
unknown well; otherwise fetch the rows in range, build the sorted set
of distinct depths (`sorted(set(...))` = stable sort of the
first-occurrence dedup), pre-initialize the per-name arrays, run the
assignment loop (which can raise `IndexError`), and assemble the
result with `series.get(cn, [None] * len(depth_set))` per requested
name. -/
def get_curve_data (db : DB) (well_id : ℕ) (curve_names : List String)
    (depth_min depth_max : PyFloat) : Except PyErr (Option CurveData) :=
  match WellDAO_get_by_id db well_id with
  | none => .ok none
  | some _ =>
    let records := get_by_well_and_depth_range db well_id depth_min depth_max curve_names
    let depth_set := ((records.map (·.depth)).dedup).insertionSort (fun a b => a.le b)
    match assignRecords records depth_set (initSeries depth_set curve_names) with
    | .error e => .error e
    | .ok s =>
      .ok (some
        { depth := depth_set,
          series := curve_names.map (fun cn =>
            (cn, (smGet? s cn).getD (List.replicate depth_set.length none))) })

/-- Embedding of `AIService._is_valid_value` for values read back from
the `curves` table: `None` fails, NaN fails the `f == f` test, every
other float passes (`float(v)` cannot raise on a float). -/
def is_valid_value : Option PyFloat → Bool
  | none => false
  | some v => !v.isNan

/-- The finite-float extractor used to model exact statistics: `some`
exactly on finite values. -/
def PyFloat.finQ? : PyFloat → Option ℚ
  | .fin q => some q
  | _ => none

/-- Python's `round(x, 4)` on an exactly-represented value: round half
to even at four decimal places. -/
def roundTo4 (q : ℚ) : ℚ :=
  let x := q * 10000
  let f : ℤ := Int.floor x
  let r := x - f
  let i : ℤ :=
    if r < 1/2 then f
    else if 1/2 < r then f + 1
    else if f % 2 = 0 then f else f + 1
  (i : ℚ) / 10000

/-- One element of the `anomalies` list built by `AIService.interpret`
lines 67-73 (the dict with depth, curve name, value, rounded mean and
the high/low tag). -/
structure Anomaly where
  depth : PyFloat
  curve_name : String
  value : ℚ
  mean : ℚ
  deviation : String
deriving DecidableEq, Repr

/-- Insertion-ordered grouping step of `AIService.interpret` lines
39-42: append a `(depth, value)` point under a curve name, creating the
binding at the end on first sight (`defaultdict(list)` in a dict that
preserves insertion order). -/
def gbAdd (g : List (String × List (PyFloat × PyFloat))) (k : String) (p : PyFloat × PyFloat) :
    List (String × List (PyFloat × PyFloat)) :=
  match g with
  | [] => [(k, [p])]
  | q :: rest => if q.1 = k then (q.1, q.2 ++ [p]) :: rest else q :: gbAdd rest k p

/-- The `by_curve` grouping of `AIService.interpret`: one pass over the
returned rows, keeping only rows whose value passes
`_is_valid_value`. -/
def by_curve (records : List Curve) : List (String × List (PyFloat × PyFloat)) :=
  records.foldl
    (fun g r => match r.value with
      | some v => if !v.isNan then gbAdd g r.curve_name (r.depth, v) else g
      | none => g)
    []

/-- Per-curve anomaly pass of `AIService.interpret` lines 51-73.  The
source computes `mean = statistics.mean(values)`, `std =
statistics.stdev(values)` (`0` when fewer than two values raise
`StatisticsError`) and flags `v` when `v > mean + 2*std` or `v < mean -
2*std`, tagging `high` in the first case.  Over the reals with `std =
√var`, `var ≥ 0`, that test is equivalent to `(v - mean)² > 4·var`, and
the tag is `high` exactly when additionally `v > mean`; the embedding
uses this square form so the statistics stay in exact rational
arithmetic.  When any grouped value is ±∞ (NaN never enters a group)
the float mean or thresholds evaluate to NaN or ±∞ and every strict
comparison `v > hi` / `v < lo` in the source is false, so no anomaly is
emitted: the `none` branch below returns the empty list for exactly
that case. -/
def curveAnomalies (cname : String) (points : List (PyFloat × PyFloat)) : List Anomaly :=
  match (points.map (·.2)).mapM PyFloat.finQ? with
  | none => []
  | some qs =>
    if qs.length = 0 then []
    else
      let n : ℚ := qs.length
      let mean := qs.sum / n
      let varS :=
        if 2 ≤ qs.length then (qs.map (fun q => (q - mean) * (q - mean))).sum / (n - 1) else 0
      points.filterMap (fun p =>
        match p.2.finQ? with
        | some v =>
          if (v - mean) * (v - mean) > 4 * varS then
            some { depth := p.1, curve_name := cname, value := v, mean := roundTo4 mean,
                   deviation := if v > mean then "high" else "low" }
          else none
        | none => none)

/-- The full anomaly list accumulated by `AIService.interpret` across
curves (in `by_curve` insertion order), before the `[:50]` cap; the
`if not points: continue` and `if not values: continue` guards are the
two emptiness tests of the source (the second is equivalent to the
first since `values` collects every point's value). -/
def anomaliesOf (records : List Curve) : List Anomaly :=
  (by_curve records).flatMap (fun kp =>
    if kp.2 = [] then [] else curveAnomalies kp.1 kp.2)

/-- Embedding of the anomaly part of `AIService.interpret`: `None` for
an unknown well, otherwise the anomaly list of the rows in range,
capped by `anomalies[:50]`.  The `summary` and `insights` fields of the
returned dict are not modelled (no claim mentions them). -/
def interpret_anomalies (db : DB) (well_id : ℕ) (curve_names : List String)
    (depth_min depth_max : PyFloat) : Option (List Anomaly) :=
  match WellDAO_get_by_id db well_id with
  | none => none
  | some _ =>
    some ((anomaliesOf (get_by_well_and_depth_range db well_id depth_min depth_max curve_names)).take 50)

/-- All samples of one well, in table order (the observable "sample
table for that well"). -/
def samplesOfWell (db : DB) (well_id : ℕ) : List Curve :=
  db.samples.filter (fun s => s.well_id == well_id)

/-- Embedding of `FileService.process_upload` at committed-state
granularity (the S3 upload and the returned dict are opaque to the
claims): parse the content (the parsed document `doc` is the input),
resolve the well by parsed name — reusing the first well of that name
and purging its samples, or creating a fresh well — record the file as
processed, extract the samples and bulk-insert them (inserting the
empty list is a no-op, matching the `if curves:` guard). -/
def process_upload (db : DB) (doc : ParsedLAS) : DB :=
  let well_name := get_well_name doc
  match WellDAO_get_by_name db well_name with
  | some w =>
    let db1 := CurveDAO_delete_by_well_id db w.id
    let db2 := FileDAO_create db1 w.id true
    CurveDAO_bulk_insert_state db2 (extract_curves doc w.id)
  | none =>
    let wdb := WellDAO_create db well_name
    let db2 := FileDAO_create wdb.2 wdb.1.id true
    CurveDAO_bulk_insert_state db2 (extract_curves doc wdb.1.id)

/-- Fault injection for `FileService.process_existing_file`: run to
completion, raise during the S3 download / LAS parse, or raise inside
`CurveDAO.bulk_insert` (a relational-store error; per the single-commit
design of `bulk_insert`, none of its chunks become visible). -/
inductive ProcFault where
  | ok
  | atParse
  | atInsert
deriving DecidableEq, Repr

/-- Observable outcome of one `process_existing_file` attempt: the
committed database state afterwards, and the raised error (as the
surfaced message), if any. -/
structure ProcResult where
  db : DB
  error : Option String
deriving DecidableEq, Repr

/-- Embedding of `FileService.process_existing_file` at committed-state
granularity with fault injection.  Steps in source order: file lookup
(`ValueError` when absent), already-processed guard (`ValueError`), S3
download + LAS parse (an `atParse` fault raises here, before any
database write), well resolution by parsed name — purging the existing
well's samples (a separately committed delete) or creating a fresh well
(committed) — sample extraction, bulk insert (an `atInsert` fault
raises here when there are rows to insert; the uncommitted chunks
vanish, the state keeps the already-committed well writes), then
`FileDAO.update_file(..., processed=True)` and finally the cleanup of a
now-file-less old placeholder well named "Unprocessed".  The progress
emission is fire-and-forget and does not affect state. -/
def process_existing_file (db0 : DB) (file_id : ℕ) (doc : ParsedLAS) (fault : ProcFault) :
    ProcResult :=
  match FileDAO_get_by_id db0 file_id with
  | none => { db := db0, error := some "File not found" }
  | some f =>
    if f.processed then { db := db0, error := some "File already processed" }
    else if fault = .atParse then { db := db0, error := some "download or parse raised" }
    else
      let old_well_id := f.well_id
      let well_name := get_well_name doc
      let wdb : Well × DB :=
        match WellDAO_get_by_name db0 well_name with
        | some w => (w, CurveDAO_delete_by_well_id db0 w.id)
        | none => WellDAO_create db0 well_name
      let w := wdb.1
      let db1 := wdb.2
      let curves := extract_curves doc w.id
      if fault = .atInsert ∧ curves ≠ [] then
        { db := db1, error := some "bulk insert raised" }
      else
        let db2 := CurveDAO_bulk_insert_state db1 curves
        let db3 := FileDAO_update_file db2 file_id w.id true
        if old_well_id ≠ w.id ∧ FileDAO_get_by_well_id db3 old_well_id = [] then
          match WellDAO_get_by_id db3 old_well_id with
          | some ow =>
            if ow.name = "Unprocessed" then
              { db := WellDAO_delete_by_id (CurveDAO_delete_by_well_id db3 old_well_id) old_well_id,
                error := none }
            else { db := db3, error := none }
          | none => { db := db3, error := none }
        else { db := db3, error := none }

/-- Example database for the visualization claims: one well with one
sample. -/
def exDB1 : DB :=
  { wells := [{ id := 1, name := "W" }], files := [],
    samples := [{ well_id := 1, depth := .fin 5, curve_name := "GR", value := some (.fin 7) }],
    nextWellId := 2, nextFileId := 1 }

/-- Example database for the anomaly-cap claim: curve "A" (first seen at
depth 1) has 250 zero samples at depths 1..250 and 50 samples of value 6
at depths 251..300 — exactly the fifty 6-values are 2-sigma outliers —
while curve "B" has an outlier of value 110 at depth 5/2 and ten zero
samples at depths 400..409. -/
def exDB5 : DB :=
  { wells := [{ id := 1, name := "W" }], files := [],
    samples :=
      ((List.range 250).map (fun j =>
        { well_id := 1, depth := .fin ((j : ℚ) + 1), curve_name := "A", value := some (.fin 0) })) ++
      ((List.range 50).map (fun j =>
        { well_id := 1, depth := .fin ((j : ℚ) + 251), curve_name := "A", value := some (.fin 6) })) ++
      [{ well_id := 1, depth := .fin (5/2), curve_name := "B", value := some (.fin 110) }] ++
      ((List.range 10).map (fun j =>
        { well_id := 1, depth := .fin ((j : ℚ) + 400), curve_name := "B", value := some (.fin 0) })),
    nextWellId := 2, nextFileId := 1 }

/-- The rows `AIService.interpret` fetches in the `exDB5` scenario. -/
def exDB5recs : List Curve :=
  get_by_well_and_depth_range exDB5 1 (.fin 0) (.fin 1000) ["A", "B"]

/-- The full detected-anomaly list of the `exDB5` scenario, before the
`[:50]` cap. -/
def exDB5all : List Anomaly := anomaliesOf exDB5recs

/-- Example database for the 2-sigma example claim: one curve with the
values 10, 10, 10, 10, 100 at depths 1..5. -/
def exDB6 : DB :=
  { wells := [{ id := 1, name := "W" }], files := [],
    samples :=
      [{ well_id := 1, depth := .fin 1, curve_name := "GR", value := some (.fin 10) },
       { well_id := 1, depth := .fin 2, curve_name := "GR", value := some (.fin 10) },
       { well_id := 1, depth := .fin 3, curve_name := "GR", value := some (.fin 10) },
       { well_id := 1, depth := .fin 4, curve_name := "GR", value := some (.fin 10) },
       { well_id := 1, depth := .fin 5, curve_name := "GR", value := some (.fin 100) }],
    nextWellId := 2, nextFileId := 1 }

/-- Example parsed document: depth column and one "GR" curve. -/
def exDoc2 : ParsedLAS :=
  { curves := [{ mnemonic := "DEPT", data := [.fin 1, .fin 2] },
               { mnemonic := "GR", data := [.fin 9, .fin 8] }],
    wellField := some "W" }

/-- Example database for the replace-semantics witness: the well "W"
already exists and has a leftover sample of curve "OLD". -/
def exDB2 : DB :=
  { wells := [{ id := 1, name := "W" }], files := [],
    samples := [{ well_id := 1, depth := .fin 7, curve_name := "OLD", value := some (.fin 1) }],
    nextWellId := 2, nextFileId := 1 }

/-- Example database for the failed-processing claim: well "W" exists
with one prior sample, and file 1 is stored but not yet processed. -/
def exDB3 : DB :=
  { wells := [{ id := 1, name := "W" }],
    files := [{ id := 1, well_id := 1, processed := false }],
    samples := [{ well_id := 1, depth := .fin 7, curve_name := "OLD", value := some (.fin 1) }],
    nextWellId := 2, nextFileId := 2 }

/-- Example document whose data column holds the raw LAS null value
-999.25 (= -3997/4) at the second row. -/
def exDoc4 : ParsedLAS :=
  { curves := [{ mnemonic := "DEPT", data := [.fin 1, .fin 2] },
               { mnemonic := "GR", data := [.fin 9, .fin (-3997/4)] }],
    wellField := some "W" }

/-- Example document with an infinite depth cell. -/
def exDoc8 : ParsedLAS :=
  { curves := [{ mnemonic := "DEPT", data := [.inf] },
               { mnemonic := "GR", data := [.fin 5] }],
    wellField := none }

/-- Example document with three declared curves of two rows each, one
row having a NaN depth. -/
def exDoc9 : ParsedLAS :=
  { curves := [{ mnemonic := "DEPT", data := [.fin 1, .nan] },
               { mnemonic := "GR", data := [.fin 9, .fin 8] },
               { mnemonic := "RHOB", data := [.fin 2, .fin 3] }],
    wellField := some "W" }


/-- Example list of three samples for the bulk-insert witness. -/
def exCurves7 : List Curve :=
  [{ well_id := 1, depth := .fin 1, curve_name := "GR", value := some (.fin 4) },
   { well_id := 1, depth := .fin 2, curve_name := "GR", value := none },
   { well_id := 1, depth := .fin 3, curve_name := "GR", value := some (.fin 6) }]

/-- Pivot output actually produced for `exDB1` when the name "GR" is
requested twice: the single distinct depth produces arrays of length 2,
one slot per duplicated occurrence of the name. -/
def exC1cd : CurveData :=
  { depth := [.fin 5],
    series := [("GR", [some (.fin 7), none]), ("GR", [some (.fin 7), none])] }

/-! Theorems.  Each claim Cn of the specification is settled by one
theorem (plus, where applicable, a witness instantiating its
hypotheses, or a counterexample refuting the claim as stated). -/

/-- Helper: every sample produced by the inner row loop carries the
trimmed curve name, a non-NaN depth, and a value that is either absent
or a non-null-token cell of the value column. -/
theorem extractRows_mem_spec {wid : ℕ} {cname : String} {dd vd : List PyFloat} {s : Curve}
    (h : s ∈ extractRows wid cname dd vd) :
    s.curve_name = pyStrip cname ∧ s.depth.isNan = false ∧
      (s.value = none ∨ ∃ v ∈ vd, s.value = some v ∧ v.strIsNullToken = false) := by
  simp only [extractRows, List.mem_filterMap] at h
  obtain ⟨⟨d, v⟩, hmem, heq⟩ := h
  by_cases hd : d.isNan
  · simp [hd] at heq
  · simp only [hd, Bool.false_eq_true, if_false, Option.some.injEq] at heq
    subst heq
    refine ⟨rfl, by simpa using hd, ?_⟩
    by_cases hv : v.strIsNullToken
    · exact Or.inl (by simp [hv])
    · exact Or.inr ⟨v, (List.of_mem_zip hmem).2, by simp [hv], by simpa using hv⟩

/-- Helper: every sample of `extract_curves` comes from the row loop of
some declared curve of positive index, run on columns obtained by
mnemonic lookup. -/
theorem mem_extract_curves_spec {doc : ParsedLAS} {wid : ℕ} {s : Curve}
    (h : s ∈ extract_curves doc wid) :
    ∃ ic ∈ doc.curves.enum.drop 1, ∃ dd vd,
      lasGet doc ic.2.mnemonic = some vd ∧ s ∈ extractRows wid ic.2.mnemonic dd vd := by
  rcases hc : doc.curves with _ | ⟨c0, tl⟩
  · unfold extract_curves at h
    rw [hc] at h
    simp at h
  · unfold extract_curves at h
    rw [hc] at h
    simp only [List.mem_flatMap] at h
    obtain ⟨ic, hic, hs⟩ := h
    refine ⟨ic, hic, ?_⟩
    split at hs
    case h_1 dd vd hdd hvd => exact ⟨dd, vd, hvd, hs⟩
    case h_2 => simp at hs

/-- Helper: the second component of an element of `l.enum.drop 1` is an
element of `l.drop 1`. -/
theorem snd_mem_of_mem_enum_drop {α : Type} {l : List α} {ic : ℕ × α}
    (h : ic ∈ l.enum.drop 1) : ic.2 ∈ l.drop 1 := by
  obtain ⟨k, hk⟩ := List.mem_iff_getElem?.mp h
  rw [List.getElem?_drop, List.getElem?_enum] at hk
  rw [Option.map_eq_some'] at hk
  obtain ⟨c, hc, hco⟩ := hk
  refine List.mem_iff_getElem?.mpr ⟨k, ?_⟩
  rw [List.getElem?_drop, hc, ← hco]

/-- Helper: a successful mnemonic lookup returns the data column of one
of the declared curves. -/
theorem lasGet_spec {doc : ParsedLAS} {nm : String} {dd : List PyFloat}
    (h : lasGet doc nm = some dd) : ∃ c ∈ doc.curves, dd = c.data := by
  unfold lasGet at h
  rw [Option.map_eq_some'] at h
  obtain ⟨c, hc, hco⟩ := h
  exact ⟨c, List.mem_of_find?_eq_some hc, hco.symm⟩

/-- Helper: the row loop emits at most one sample per depth-column
cell. -/
theorem extractRows_length_le (wid : ℕ) (cname : String) (dd vd : List PyFloat) :
    (extractRows wid cname dd vd).length ≤ dd.length := by
  unfold extractRows
  refine le_trans (List.length_filterMap_le _ _) ?_
  rw [List.length_zip]
  exact min_le_left _ _

/-- C8 counterexample: a row whose depth is +∞ (not a finite real) is
NOT dropped — `extract_curves` emits its sample, because the source
only guards against NaN (`depth_val != depth_val`), and `float('inf')`
passes that test. -/
theorem C8_counterexample :
    extract_curves exDoc8 1 =
      [{ well_id := 1, depth := .inf, curve_name := "GR", value := some (.fin 5) }] := by
  decide

/-- C8 amended: during sample extraction, every data row whose depth is
NaN is dropped entirely (and an unparseable depth cannot occur, since
the parsed columns hold floats); rows with ±infinite depth are kept.
Formally: every emitted sample has a non-NaN depth. -/
theorem C8_amended (doc : ParsedLAS) (wid : ℕ) (s : Curve)
    (h : s ∈ extract_curves doc wid) : s.depth.isNan = false := by
  obtain ⟨ic, _, dd, vd, _, hrow⟩ := mem_extract_curves_spec h
  exact (extractRows_mem_spec hrow).2.1

/-- C8 witness: the amended theorem applied to the concrete document
`exDoc8` and its emitted sample. -/
theorem C8_amended_witness :
    ({ well_id := 1, depth := .inf, curve_name := "GR", value := some (.fin 5) } : Curve).depth.isNan
      = false :=
  C8_amended exDoc8 1 _ (by decide)

/-- C9: for a document with N declared curves whose data columns all
have R rows, `extract_curves` emits at most (N-1)·R samples, and every
emitted sample's name comes from a non-first declared curve (the first
declared curve supplies the depth index and is excluded). -/
theorem C9_extract_bound (doc : ParsedLAS) (wid R : ℕ)
    (hR : ∀ c ∈ doc.curves, c.data.length = R) :
    (extract_curves doc wid).length ≤ (doc.curves.length - 1) * R ∧
    ∀ s ∈ extract_curves doc wid,
      s.curve_name ∈ (doc.curves.drop 1).map (fun c => pyStrip c.mnemonic) := by
  constructor
  · rcases hc : doc.curves with _ | ⟨c0, tl⟩
    · unfold extract_curves
      rw [hc]
      simp
    · unfold extract_curves
      rw [hc]
      rw [List.length_flatMap]
      refine le_trans (List.sum_le_card_nsmul _ R ?_) ?_
      · intro x hx
        simp only [List.mem_map, Function.comp] at hx
        obtain ⟨ic, _, hlen⟩ := hx
        subst hlen
        split
        case h_1 dd vd hdd hvd =>
          obtain ⟨c, hcm, hdata⟩ := lasGet_spec hdd
          have : dd.length = R := by rw [hdata]; exact hR c hcm
          exact le_trans (extractRows_length_le _ _ _ _) (le_of_eq this)
        case h_2 => simp
      · rw [smul_eq_mul, List.length_map, List.length_drop, List.enum_length]
  · intro s hs
    obtain ⟨ic, hic, dd, vd, _, hrow⟩ := mem_extract_curves_spec hs
    have hname := (extractRows_mem_spec hrow).1
    exact List.mem_map.mpr ⟨ic.2, snd_mem_of_mem_enum_drop hic, hname.symm⟩

/-- C9 witness: the bound applied to the concrete three-curve, two-row
document `exDoc9` (one row is dropped for NaN depth, so 2 ≤ (3-1)·2
samples are emitted). -/
theorem C9_extract_bound_witness :
    (extract_curves exDoc9 1).length ≤ (exDoc9.curves.length - 1) * 2 ∧
    ∀ s ∈ extract_curves exDoc9 1,
      s.curve_name ∈ (exDoc9.curves.drop 1).map (fun c => pyStrip c.mnemonic) :=
  C9_extract_bound exDoc9 1 2 (by decide)

/-- Helper: when the declared mnemonics are pairwise distinct, the
dictionary lookup for the mnemonic of the curve at any index returns
exactly that curve. -/
theorem find?_mnemonic_of_nodup {l : List LASCurve} (hnd : (l.map (fun x => x.mnemonic)).Nodup)
    {i : ℕ} {c : LASCurve} (hc : l[i]? = some c) :
    l.find? (fun x => x.mnemonic = c.mnemonic) = some c := by
  induction l generalizing i with
  | nil => simp at hc
  | cons a tl ih =>
    rw [List.map_cons, List.nodup_cons] at hnd
    rcases i with _ | i
    · simp only [List.getElem?_cons_zero, Option.some.injEq] at hc
      subst hc
      exact List.find?_cons_of_pos _ (by simp)
    · simp only [List.getElem?_cons_succ] at hc
      have hmem : c ∈ tl := List.mem_iff_getElem?.mpr ⟨i, hc⟩
      have hne : (a.mnemonic = c.mnemonic) = False := by
        simp only [eq_iff_iff, iff_false]
        intro he
        exact hnd.1 (he ▸ List.mem_map_of_mem _ hmem)
      rw [List.find?_cons_of_neg _ (by simp [hne])]
      exact ih hnd.2 hc

/-- Helper: a row whose depth cell is not NaN yields its sample in the
row-loop output, with the value normalized through the null-token
test. -/
theorem extractRows_mem_of_row (wid : ℕ) (cname : String) {dd vd : List PyFloat} {j : ℕ}
    {d v : PyFloat} (hd : dd[j]? = some d) (hv : vd[j]? = some v) (hdn : d.isNan = false) :
    ({ well_id := wid, depth := d, curve_name := pyStrip cname,
       value := if v.strIsNullToken then none else some v } : Curve)
      ∈ extractRows wid cname dd vd := by
  unfold extractRows
  refine List.mem_filterMap.mpr ⟨(d, v), ?_, ?_⟩
  · refine List.mem_iff_getElem?.mpr ⟨j, ?_⟩
    unfold List.zip
    rw [List.getElem?_zipWith, hd, hv]
  · simp [hdn]


/-- Helper: when the mnemonics are pairwise distinct, any sample in the
row-loop output of the curve at index i ≥ 1 (run on the depth column of
curve 0 and the data column of curve i) is in the `extract_curves`
output. -/
theorem extract_curves_mem_of_indices {doc : ParsedLAS} {wid i : ℕ} {c0 c : LASCurve} {s : Curve}
    (hnd : (doc.curves.map (fun x => x.mnemonic)).Nodup)
    (h0 : doc.curves[0]? = some c0) (hi1 : 1 ≤ i) (hi : doc.curves[i]? = some c)
    (hs : s ∈ extractRows wid c.mnemonic c0.data c.data) :
    s ∈ extract_curves doc wid := by
  rcases hl : doc.curves with _ | ⟨b, tl⟩
  · rw [hl] at h0
    simp at h0
  · have hb : b = c0 := by
      rw [hl] at h0
      simpa using h0
    subst hb
    unfold extract_curves
    rw [hl]
    refine List.mem_flatMap.mpr ⟨(i, c), ?_, ?_⟩
    · refine List.mem_iff_getElem?.mpr ⟨i - 1, ?_⟩
      rw [List.getElem?_drop, List.getElem?_enum]
      have hidx : 1 + (i - 1) = i := by omega
      rw [hidx, ← hl, hi]
      rfl
    · have hfind0 : lasGet doc b.mnemonic = some b.data := by
        unfold lasGet
        rw [find?_mnemonic_of_nodup hnd h0]
        rfl
      have hfindi : lasGet doc c.mnemonic = some c.data := by
        unfold lasGet
        rw [find?_mnemonic_of_nodup hnd hi]
        rfl
      show s ∈ match lasGet doc b.mnemonic, lasGet doc c.mnemonic with
        | some dd, some vd => extractRows wid c.mnemonic dd vd
        | _, _ => ([] : List Curve)
      rw [hfind0, hfindi]
      exact hs

/-- C4: a curve value equal to a documented null sentinel — the
declared LAS NULL value (-999.25-style, substituted to NaN by the
parsing library before extraction reads the columns) or a value whose
textual rendering is a not-a-number/null token — is normalized to an
absent value while its sample is still emitted at that (non-NaN) depth;
moreover no emitted sample ever stores the literal sentinel number or
NaN as its value. -/
theorem C4_null_sentinel (nullVal : ℚ) (doc : ParsedLAS) (wid i j : ℕ)
    (c0 c : LASCurve) (d : ℚ) (v : PyFloat)
    (hnd : (doc.curves.map (fun x => x.mnemonic)).Nodup)
    (h0 : doc.curves[0]? = some c0)
    (hi1 : 1 ≤ i) (hi : doc.curves[i]? = some c)
    (hd : c0.data[j]? = some (.fin d)) (hdn : d ≠ nullVal)
    (hv : c.data[j]? = some v)
    (hsent : v = .fin nullVal ∨ v.strIsNullToken = true) :
    ({ well_id := wid, depth := .fin d, curve_name := pyStrip c.mnemonic, value := none } : Curve)
      ∈ extract_curves (applyNullSubst nullVal doc) wid ∧
    ∀ s ∈ extract_curves (applyNullSubst nullVal doc) wid,
      s.value ≠ some (.fin nullVal) ∧ s.value ≠ some .nan := by
  constructor
  · have hnd' : ((applyNullSubst nullVal doc).curves.map (fun x => x.mnemonic)).Nodup := by
      show ((doc.curves.map _).map _).Nodup
      rw [List.map_map]
      exact hnd
    have h0' : (applyNullSubst nullVal doc).curves[0]? = some
        { c0 with data := c0.data.map (fun y => if y = PyFloat.fin nullVal then .nan else y) } := by
      show (doc.curves.map _)[0]? = _
      rw [List.getElem?_map, h0]
      rfl
    have hi' : (applyNullSubst nullVal doc).curves[i]? = some
        { c with data := c.data.map (fun y => if y = PyFloat.fin nullVal then .nan else y) } := by
      show (doc.curves.map _)[i]? = _
      rw [List.getElem?_map, hi]
      rfl
    have hd' : ({ c0 with
        data := c0.data.map (fun y => if y = PyFloat.fin nullVal then .nan else y) }
          : LASCurve).data[j]? = some (.fin d) := by
      show (c0.data.map _)[j]? = _
      rw [List.getElem?_map, hd]
      have hne : (PyFloat.fin d = PyFloat.fin nullVal) = False := by
        simp only [eq_iff_iff, iff_false, PyFloat.fin.injEq]
        exact hdn
      simp [hne]
    have hv' : ({ c with
        data := c.data.map (fun y => if y = PyFloat.fin nullVal then .nan else y) }
          : LASCurve).data[j]? = some (if v = PyFloat.fin nullVal then PyFloat.nan else v) := by
      show (c.data.map _)[j]? = _
      rw [List.getElem?_map, hv]
      rfl
    have htok : (if v = PyFloat.fin nullVal then PyFloat.nan else v).strIsNullToken = true := by
      rcases hsent with hval | htk
      · simp [hval, PyFloat.strIsNullToken]
      · by_cases hvv : v = PyFloat.fin nullVal
        · simp [hvv, PyFloat.strIsNullToken]
        · simpa [hvv] using htk
    have hmem := extractRows_mem_of_row wid
      ({ c with data := c.data.map (fun y => if y = PyFloat.fin nullVal then .nan else y) }
        : LASCurve).mnemonic hd' hv' (by rfl)
    rw [if_pos htok] at hmem
    exact extract_curves_mem_of_indices hnd' h0' hi1 hi' hmem
  · intro s hs
    obtain ⟨ic, hic, dd, vd, hvd, hrow⟩ := mem_extract_curves_spec hs
    rcases (extractRows_mem_spec hrow).2.2 with hnone | ⟨v', hv'm, hsv, hnt⟩
    · rw [hnone]
      exact ⟨by simp, by simp⟩
    · rw [hsv]
      obtain ⟨cc, hccm, hvdeq⟩ := lasGet_spec hvd
      have hccm' : cc ∈ doc.curves.map
          (fun x => { x with
            data := x.data.map (fun y => if y = PyFloat.fin nullVal then .nan else y) }) := hccm
      obtain ⟨c'', _, hgc⟩ := List.mem_map.mp hccm'
      constructor
      · intro hcon
        have hv'eq : v' = .fin nullVal := by simpa using hcon
        rw [hvdeq, ← hgc] at hv'm
        have hv'm' : v' ∈ c''.data.map (fun y => if y = PyFloat.fin nullVal then .nan else y) :=
          hv'm
        obtain ⟨y, _, hy⟩ := List.mem_map.mp hv'm'
        rw [hv'eq] at hy
        by_cases hyy : y = PyFloat.fin nullVal
        · rw [if_pos hyy] at hy
          exact PyFloat.noConfusion hy
        · rw [if_neg hyy] at hy
          exact hyy hy
      · intro hcon
        have hv'eq : v' = .nan := by simpa using hcon
        rw [hv'eq] at hnt
        simp [PyFloat.strIsNullToken] at hnt

/-- C4 witness: the theorem applied to the concrete document `exDoc4`,
whose "GR" column holds the raw LAS null -999.25 (= -3997/4) at row 1 —
the sample at depth 2 is emitted with an absent value. -/
theorem C4_null_sentinel_witness :
    ({ well_id := 1, depth := .fin 2, curve_name := pyStrip "GR", value := none } : Curve)
      ∈ extract_curves (applyNullSubst (-3997/4) exDoc4) 1 ∧
    ∀ s ∈ extract_curves (applyNullSubst (-3997/4) exDoc4) 1,
      s.value ≠ some (.fin (-3997/4)) ∧ s.value ≠ some .nan :=
  C4_null_sentinel (-3997/4) exDoc4 1 1 1
    { mnemonic := "DEPT", data := [.fin 1, .fin 2] }
    { mnemonic := "GR", data := [.fin 9, .fin (-3997/4)] }
    2 (.fin (-3997/4))
    (by decide) (by decide) (by decide) (by decide) (by decide) (by decide) (by decide)
    (Or.inl rfl)

/-- Helper: a `flatMap` over `range' s m B` is a `flatMap` over `range
m` with the index affinely transformed. -/
theorem range'_flatMap {β : Type} (f : ℕ → List β) (B : ℕ) :
    ∀ (m s : ℕ), (List.range' s m B).flatMap f = (List.range m).flatMap (fun k => f (s + B * k)) := by
  intro m
  induction m with
  | zero => intro s; rfl
  | succ m ih =>
    intro s
    rw [List.range'_succ, List.range_succ_eq_map]
    simp only [List.flatMap_cons, List.flatMap_map]
    rw [ih (s + B)]
    have : (fun k => f (s + B + B * k)) = (fun k => f (s + B * (k + 1))) := by
      funext k
      ring_nf
    rw [this]
    have h0 : s + B * 0 = s := by ring
    rw [h0]

/-- Helper: flatMapping singleton lists is mapping. -/
theorem flatMap_singleton_eq_map {α β : Type} (l : List α) (g : α → β) :
    (l.flatMap fun a => [g a]) = l.map g := by
  induction l with
  | nil => rfl
  | cons a tl ih => simp only [List.flatMap_cons, List.map_cons, List.singleton_append, ih]

/-- Helper: closed form of the `bulk_insert` event trace for a
non-empty input with a callback: one (chunk, progress) pair per loop
iteration, then the single commit. -/
theorem bulk_insert_events_eq (curves : List Curve) (h : curves ≠ []) :
    bulk_insert_events curves true =
      ((List.range ((curves.length + BATCH_SIZE - 1) / BATCH_SIZE)).flatMap (fun k =>
        [DBEvent.insertChunk (min BATCH_SIZE (curves.length - k * BATCH_SIZE)),
         DBEvent.progress (min ((k + 1) * BATCH_SIZE) curves.length) curves.length])) ++
        [DBEvent.commit] := by
  have hn : 0 < curves.length := List.length_pos.mpr h
  have hB : BATCH_SIZE = 10000 := rfl
  unfold bulk_insert_events
  rw [if_neg (by omega)]
  congr 1
  rw [range'_flatMap]
  refine List.flatMap_congr ?_
  intro k _
  simp only [if_true, List.length_take, List.length_drop]
  have e1 : min BATCH_SIZE (curves.length - (0 + BATCH_SIZE * k))
      = min BATCH_SIZE (curves.length - k * BATCH_SIZE) := by
    rw [hB]
    omega
  have e2 : min ((0 + BATCH_SIZE * k) + min BATCH_SIZE (curves.length - (0 + BATCH_SIZE * k)))
        curves.length
      = min ((k + 1) * BATCH_SIZE) curves.length := by
    rw [hB]
    omega
  rw [e2, e1]

/-- C7: for a non-empty sample list of length n, `bulk_insert` (with a
callback supplied) inserts in chunks of `BATCH_SIZE = 10000` (each chunk
of size `min 10000 (n - k·10000)`), invokes the callback exactly once
after each chunk with the cumulative count as first argument and n as
second (the last call reporting n), and issues exactly one commit, after
all chunks. -/
theorem C7_bulk_insert (curves : List Curve) (h : curves ≠ []) :
    bulk_insert_events curves true =
      ((List.range ((curves.length + BATCH_SIZE - 1) / BATCH_SIZE)).flatMap (fun k =>
        [DBEvent.insertChunk (min BATCH_SIZE (curves.length - k * BATCH_SIZE)),
         DBEvent.progress (min ((k + 1) * BATCH_SIZE) curves.length) curves.length])) ++
        [DBEvent.commit] ∧
    (bulk_insert_events curves true).count .commit = 1 ∧
    (bulk_insert_events curves true).getLast? = some .commit ∧
    progressArgs (bulk_insert_events curves true) =
      (List.range ((curves.length + BATCH_SIZE - 1) / BATCH_SIZE)).map
        (fun k => (min ((k + 1) * BATCH_SIZE) curves.length, curves.length)) ∧
    (progressArgs (bulk_insert_events curves true)).getLast? =
      some (curves.length, curves.length) ∧
    insertSizes (bulk_insert_events curves true) =
      (List.range ((curves.length + BATCH_SIZE - 1) / BATCH_SIZE)).map
        (fun k => min BATCH_SIZE (curves.length - k * BATCH_SIZE)) := by
  have hn : 0 < curves.length := List.length_pos.mpr h
  have hB : BATCH_SIZE = 10000 := rfl
  have hm : 1 ≤ (curves.length + BATCH_SIZE - 1) / BATCH_SIZE := by
    rw [hB]
    omega
  have E := bulk_insert_events_eq curves h
  have hcount : (bulk_insert_events curves true).count .commit = 1 := by
    rw [E, List.count_append]
    have hz : ((List.range ((curves.length + BATCH_SIZE - 1) / BATCH_SIZE)).flatMap (fun k =>
        [DBEvent.insertChunk (min BATCH_SIZE (curves.length - k * BATCH_SIZE)),
         DBEvent.progress (min ((k + 1) * BATCH_SIZE) curves.length)
           curves.length])).count DBEvent.commit = 0 := by
      refine List.count_eq_zero.mpr ?_
      intro hmem
      rw [List.mem_flatMap] at hmem
      obtain ⟨k, _, hk⟩ := hmem
      simp at hk
    rw [hz]
    rfl
  have hprog : progressArgs (bulk_insert_events curves true) =
      (List.range ((curves.length + BATCH_SIZE - 1) / BATCH_SIZE)).map
        (fun k => (min ((k + 1) * BATCH_SIZE) curves.length, curves.length)) := by
    rw [E]
    unfold progressArgs
    rw [List.filterMap_append, List.filterMap_flatMap]
    have hone : ((List.range ((curves.length + BATCH_SIZE - 1) / BATCH_SIZE)).flatMap (fun k =>
        List.filterMap (fun e => match e with
          | DBEvent.progress a b => some (a, b)
          | _ => none)
          [DBEvent.insertChunk (min BATCH_SIZE (curves.length - k * BATCH_SIZE)),
           DBEvent.progress (min ((k + 1) * BATCH_SIZE) curves.length) curves.length])) =
        (List.range ((curves.length + BATCH_SIZE - 1) / BATCH_SIZE)).flatMap (fun k =>
          [(min ((k + 1) * BATCH_SIZE) curves.length, curves.length)]) :=
      List.flatMap_congr (fun k _ => rfl)
    rw [hone, flatMap_singleton_eq_map]
    simp
  have hsizes : insertSizes (bulk_insert_events curves true) =
      (List.range ((curves.length + BATCH_SIZE - 1) / BATCH_SIZE)).map
        (fun k => min BATCH_SIZE (curves.length - k * BATCH_SIZE)) := by
    rw [E]
    unfold insertSizes
    rw [List.filterMap_append, List.filterMap_flatMap]
    have hone : ((List.range ((curves.length + BATCH_SIZE - 1) / BATCH_SIZE)).flatMap (fun k =>
        List.filterMap (fun e => match e with
          | DBEvent.insertChunk a => some a
          | _ => none)
          [DBEvent.insertChunk (min BATCH_SIZE (curves.length - k * BATCH_SIZE)),
           DBEvent.progress (min ((k + 1) * BATCH_SIZE) curves.length) curves.length])) =
        (List.range ((curves.length + BATCH_SIZE - 1) / BATCH_SIZE)).flatMap (fun k =>
          [min BATCH_SIZE (curves.length - k * BATCH_SIZE)]) :=
      List.flatMap_congr (fun k _ => rfl)
    rw [hone, flatMap_singleton_eq_map]
    simp
  refine ⟨E, hcount, by rw [E]; exact List.getLast?_concat _, hprog, ?_, hsizes⟩
  rw [hprog, List.getLast?_eq_getElem?, List.length_map, List.length_range, List.getElem?_map]
  have hm1 : (curves.length + BATCH_SIZE - 1) / BATCH_SIZE - 1 <
      (curves.length + BATCH_SIZE - 1) / BATCH_SIZE := by omega
  rw [List.getElem?_range hm1]
  have hlast : min (((curves.length + BATCH_SIZE - 1) / BATCH_SIZE - 1 + 1) * BATCH_SIZE)
      curves.length = curves.length := by
    rw [hB]
    rw [hB] at hm
    have h10 : ((curves.length + 10000 - 1) / 10000 - 1 + 1) = (curves.length + 10000 - 1) / 10000 := by
      omega
    rw [h10]
    omega
  rw [Option.map_some', hlast]

/-- C7 witness: the theorem applied to the concrete three-sample list
`exCurves7` (one chunk of 3, one progress call (3, 3), one final
commit). -/
theorem C7_bulk_insert_witness :
    bulk_insert_events exCurves7 true =
      ((List.range ((exCurves7.length + BATCH_SIZE - 1) / BATCH_SIZE)).flatMap (fun k =>
        [DBEvent.insertChunk (min BATCH_SIZE (exCurves7.length - k * BATCH_SIZE)),
         DBEvent.progress (min ((k + 1) * BATCH_SIZE) exCurves7.length) exCurves7.length])) ++
        [DBEvent.commit] ∧
    (bulk_insert_events exCurves7 true).count .commit = 1 ∧
    (bulk_insert_events exCurves7 true).getLast? = some .commit ∧
    progressArgs (bulk_insert_events exCurves7 true) =
      (List.range ((exCurves7.length + BATCH_SIZE - 1) / BATCH_SIZE)).map
        (fun k => (min ((k + 1) * BATCH_SIZE) exCurves7.length, exCurves7.length)) ∧
    (progressArgs (bulk_insert_events exCurves7 true)).getLast? =
      some (exCurves7.length, exCurves7.length) ∧
    insertSizes (bulk_insert_events exCurves7 true) =
      (List.range ((exCurves7.length + BATCH_SIZE - 1) / BATCH_SIZE)).map
        (fun k => min BATCH_SIZE (exCurves7.length - k * BATCH_SIZE)) :=
  C7_bulk_insert exCurves7 (by decide)

/-- Helper: every sample of the row-loop output is tagged with the
supplied well id. -/
theorem extractRows_well_id {wid : ℕ} {cname : String} {dd vd : List PyFloat} {s : Curve}
    (h : s ∈ extractRows wid cname dd vd) : s.well_id = wid := by
  simp only [extractRows, List.mem_filterMap] at h
  obtain ⟨⟨d, v⟩, _, heq⟩ := h
  by_cases hd : d.isNan
  · simp [hd] at heq
  · simp only [hd, Bool.false_eq_true, if_false, Option.some.injEq] at heq
    subst heq
    rfl

/-- Helper: every extracted sample is tagged with the supplied well
id. -/
theorem extract_curves_well_id {doc : ParsedLAS} {wid : ℕ} {s : Curve}
    (h : s ∈ extract_curves doc wid) : s.well_id = wid := by
  obtain ⟨_, _, _, _, _, hrow⟩ := mem_extract_curves_spec h
  exact extractRows_well_id hrow

/-- Helper: right after `CurveDAO.delete_by_well_id` commits, the well
has no samples. -/
theorem samplesOfWell_delete (db : DB) (wid : ℕ) :
    samplesOfWell (CurveDAO_delete_by_well_id db wid) wid = [] := by
  unfold samplesOfWell CurveDAO_delete_by_well_id
  rw [List.filter_filter]
  refine List.filter_eq_nil_iff.mpr ?_
  intro a _
  by_cases hx : a.well_id == wid <;> simp [hx]

/-- C2: ingesting a file whose parsed well name already has a well
record purges that well's prior samples before inserting, so afterwards
the sample table for that well holds exactly the new ingestion's
samples (replace, never merge).  In particular, re-ingesting the same
well name twice leaves only the second ingestion's samples. -/
theorem C2_replace_semantics (db : DB) (doc : ParsedLAS) (w : Well)
    (hw : WellDAO_get_by_name db (get_well_name doc) = some w) :
    samplesOfWell (process_upload db doc) w.id = extract_curves doc w.id := by
  simp only [process_upload, hw]
  unfold samplesOfWell CurveDAO_bulk_insert_state FileDAO_create CurveDAO_delete_by_well_id
  simp only []
  rw [List.filter_append]
  have h1 : ((db.samples.filter (fun s => !(s.well_id == w.id))).filter
      (fun s => s.well_id == w.id)) = [] := by
    rw [List.filter_filter]
    refine List.filter_eq_nil_iff.mpr ?_
    intro a _
    by_cases hx : a.well_id == w.id <;> simp [hx]
  have h2 : ((extract_curves doc w.id).filter (fun s => s.well_id == w.id))
      = extract_curves doc w.id := by
    refine List.filter_eq_self.mpr ?_
    intro a ha
    simp [extract_curves_well_id ha]
  rw [h1, h2, List.nil_append]

/-- C2 witness: the theorem applied to `exDB2` (well "W" exists with a
leftover sample of curve "OLD") and the document `exDoc2` parsed for
well "W". -/
theorem C2_replace_semantics_witness :
    samplesOfWell (process_upload exDB2 exDoc2) 1 = extract_curves exDoc2 1 :=
  C2_replace_semantics exDB2 exDoc2 { id := 1, name := "W" } (by decide)

/-- C3 counterexample: processing of stored file 1 of `exDB3` fails
inside the bulk insert (a store error), yet the observable sample set
of well 1 after the failed attempt is empty — NOT the same as its
pre-attempt sample set — because the purge of the existing well's
samples was already committed by `CurveDAO.delete_by_well_id` before
the insert ran. -/
theorem C3_counterexample :
    (process_existing_file exDB3 1 exDoc2 .atInsert).error = some "bulk insert raised" ∧
    samplesOfWell (process_existing_file exDB3 1 exDoc2 .atInsert).db 1 = [] ∧
    samplesOfWell exDB3 1 ≠ [] := by
  decide

/-- C3 amended: a failure while downloading or parsing leaves the
database entirely unchanged (file still unprocessed) and surfaces an
error; a store failure inside the bulk insert still surfaces an error,
leaves the file record unprocessed and commits none of the new samples
— but when the parsed well name matched an existing well, that well's
prior samples were already purged by a separately committed delete, so
its observable sample set after the failed attempt is empty rather than
the pre-attempt set. -/
theorem C3_amended (db : DB) (fid : ℕ) (doc : ParsedLAS) (f : FileRec) (w : Well)
    (hf : FileDAO_get_by_id db fid = some f) (hp : f.processed = false)
    (hw : WellDAO_get_by_name db (get_well_name doc) = some w)
    (hc : extract_curves doc w.id ≠ []) :
    process_existing_file db fid doc .atParse =
      { db := db, error := some "download or parse raised" } ∧
    (process_existing_file db fid doc .atInsert).error = some "bulk insert raised" ∧
    (process_existing_file db fid doc .atInsert).db = CurveDAO_delete_by_well_id db w.id ∧
    FileDAO_get_by_id (process_existing_file db fid doc .atInsert).db fid = some f ∧
    samplesOfWell (process_existing_file db fid doc .atInsert).db w.id = [] := by
  have hins : process_existing_file db fid doc .atInsert =
      { db := CurveDAO_delete_by_well_id db w.id, error := some "bulk insert raised" } := by
    simp only [process_existing_file, hf, hp, hw]
    simp [hc]
  have hpar : process_existing_file db fid doc .atParse =
      { db := db, error := some "download or parse raised" } := by
    simp only [process_existing_file, hf, hp]
    simp
  refine ⟨hpar, by rw [hins], by rw [hins], ?_, by rw [hins]; exact samplesOfWell_delete db w.id⟩
  rw [hins]
  exact hf

/-- C3 witness: the amended theorem applied to the concrete `exDB3`
scenario. -/
theorem C3_amended_witness :
    process_existing_file exDB3 1 exDoc2 .atParse =
      { db := exDB3, error := some "download or parse raised" } ∧
    (process_existing_file exDB3 1 exDoc2 .atInsert).error = some "bulk insert raised" ∧
    (process_existing_file exDB3 1 exDoc2 .atInsert).db =
      CurveDAO_delete_by_well_id exDB3 1 ∧
    FileDAO_get_by_id (process_existing_file exDB3 1 exDoc2 .atInsert).db 1 =
      some { id := 1, well_id := 1, processed := false } ∧
    samplesOfWell (process_existing_file exDB3 1 exDoc2 .atInsert).db 1 = [] :=
  C3_amended exDB3 1 exDoc2 { id := 1, well_id := 1, processed := false }
    { id := 1, name := "W" } (by decide) (by decide) (by decide) (by decide)

/-- C6 counterexample: for the present values [10,10,10,10,100] the
engine reports NO anomaly at all — in particular the value 100 is not
flagged `high`, because the sample standard deviation of these five
points is √1620 ≈ 40.25, and 100 lies inside [28 - 2·σ, 28 + 2·σ] ≈
[-52.5, 108.5], so the strict outlier test fails. -/
theorem C6_counterexample :
    interpret_anomalies exDB6 1 ["GR"] (.fin 0) (.fin 10) = some [] := by
  decide

/-- C6 amended: under the implemented rule (strictly outside mean ±
2·sample-std, i.e. (v - mean)² > 4·var), a curve whose present values
are exactly [10,10,10,10,100] has NO flagged value: neither the 10s
(deviation² = 324 ≤ 6480 = 4·1620) nor the 100 (deviation² = 5184 ≤
6480), whatever the depths. -/
theorem C6_amended (c : String) (d1 d2 d3 d4 d5 : PyFloat) :
    curveAnomalies c
      [(d1, .fin 10), (d2, .fin 10), (d3, .fin 10), (d4, .fin 10), (d5, .fin 100)] = [] :=
  rfl

/-- C5 counterexample: in `exDB5` the engine detects 51 anomalies (50
on curve "A" at depths 251..300 and one on curve "B" at depth 5/2), but
the returned capped list is NOT the 50 lowest-depth anomalies: it omits
the depth-5/2 anomaly while containing the depth-300 one, because the
accumulated list is grouped by curve (order of first appearance), not
globally sorted by depth, before `[:50]` is applied. -/
theorem C5_counterexample :
    interpret_anomalies exDB5 1 ["A", "B"] (.fin 0) (.fin 1000) = some (exDB5all.take 50) ∧
    exDB5all.length = 51 ∧
    (exDB5all.take 50).length = 50 ∧
    (∃ a ∈ exDB5all, a.depth = .fin (5/2)) ∧
    (∀ a ∈ exDB5all.take 50, a.depth ≠ .fin (5/2)) ∧
    (∃ a ∈ exDB5all.take 50, a.depth = .fin 300) := by
  refine ⟨by decide, by decide, by decide, by decide, by decide, by decide⟩

/-- C5 amended: the anomaly list returned by the interpretation
operation never exceeds 50 entries, and equals the first 50 entries of
the full detected-anomaly list in its emission order (curves in order
of first appearance in the depth-ascending query result, depth-ascending
within each curve) — a presentation cap, not a detection cap. -/
theorem C5_amended (db : DB) (well_id : ℕ) (curve_names : List String)
    (dmin dmax : PyFloat) (l : List Anomaly)
    (h : interpret_anomalies db well_id curve_names dmin dmax = some l) :
    l.length ≤ 50 ∧
    l = (anomaliesOf (get_by_well_and_depth_range db well_id dmin dmax curve_names)).take 50 := by
  unfold interpret_anomalies at h
  cases hwf : WellDAO_get_by_id db well_id with
  | none =>
    rw [hwf] at h
    exact absurd h (by simp)
  | some w =>
    rw [hwf] at h
    simp only [Option.some.injEq] at h
    refine ⟨?_, h.symm⟩
    rw [← h]
    exact List.length_take_le _ _

/-- C5 witness: the amended theorem applied to the concrete `exDB6`
query, whose returned anomaly list is empty. -/
theorem C5_amended_witness :
    ([] : List Anomaly).length ≤ 50 ∧
    ([] : List Anomaly) =
      (anomaliesOf (get_by_well_and_depth_range exDB6 1 (.fin 0) (.fin 10) ["GR"])).take 50 :=
  C5_amended exDB6 1 ["GR"] (.fin 0) (.fin 10) [] (by decide)

/-- Helper: reading back the key just stored. -/
theorem smGet?_smSet_self (s : SeriesMap) (k : String) (v : List (Option PyFloat)) :
    smGet? (smSet s k v) k = some v := by
  induction s with
  | nil =>
    unfold smSet smGet?
    rw [List.find?_cons_of_pos _ (by simp)]
    rfl
  | cons p rest ih =>
    unfold smSet
    by_cases hp : p.1 = k
    · rw [if_pos hp]
      unfold smGet?
      rw [List.find?_cons_of_pos _ (by simp)]
      rfl
    · rw [if_neg hp]
      unfold smGet? at ih ⊢
      rw [List.find?_cons_of_neg _ (by simpa using hp)]
      exact ih

/-- Helper: storing one key does not change any other key. -/
theorem smGet?_smSet_ne (s : SeriesMap) {k k' : String} (h : ¬ k = k')
    (v : List (Option PyFloat)) : smGet? (smSet s k v) k' = smGet? s k' := by
  induction s with
  | nil =>
    unfold smSet smGet?
    rw [List.find?_cons_of_neg _ (by simpa using h)]
  | cons p rest ih =>
    unfold smSet
    by_cases hp : p.1 = k
    · rw [if_pos hp]
      unfold smGet?
      rw [List.find?_cons_of_neg _ (by simpa using h),
          List.find?_cons_of_neg _ (by simp [hp, h])]
    · rw [if_neg hp]
      unfold smGet? at ih ⊢
      by_cases hp' : p.1 = k'
      · rw [List.find?_cons_of_pos _ (by simpa using hp'),
            List.find?_cons_of_pos _ (by simpa using hp')]
      · rw [List.find?_cons_of_neg _ (by simpa using hp'),
            List.find?_cons_of_neg _ (by simpa using hp')]
        exact ih

/-- Helper: `smGetD` of the key just stored. -/
theorem smGetD_smSet_self (s : SeriesMap) (k : String) (v : List (Option PyFloat)) :
    smGetD (smSet s k v) k = v := by
  unfold smGetD
  rw [smGet?_smSet_self]
  rfl

/-- Helper: `smGetD` of an unrelated key after a store. -/
theorem smGetD_smSet_ne (s : SeriesMap) {k k' : String} (h : ¬ k = k')
    (v : List (Option PyFloat)) : smGetD (smSet s k v) k' = smGetD s k' := by
  unfold smGetD
  rw [smGet?_smSet_ne s h]

/-- Helper: one pass of the inner pre-initialization loop appends one
`none` to the array of every listed (pairwise-distinct) curve name and
leaves every other key unchanged. -/
theorem innerFold_getD (cns : List String) (hnd : cns.Nodup) :
    ∀ (s : SeriesMap) (cn : String),
      (cn ∈ cns → smGetD (cns.foldl (fun s c => smSet s c (smGetD s c ++ [none])) s) cn
          = smGetD s cn ++ [none]) ∧
      (cn ∉ cns → smGetD (cns.foldl (fun s c => smSet s c (smGetD s c ++ [none])) s) cn
          = smGetD s cn) := by
  induction cns with
  | nil => exact fun s cn => ⟨fun h => absurd h (List.not_mem_nil cn), fun _ => rfl⟩
  | cons c rest ih =>
    rw [List.nodup_cons] at hnd
    intro s cn
    rw [List.foldl_cons]
    constructor
    · intro hmem
      rcases List.mem_cons.mp hmem with hc | hrest
      · subst hc
        rw [(ih hnd.2 _ cn).2 hnd.1]
        rw [smGetD_smSet_self]
      · have hne : ¬ c = cn := fun he => hnd.1 (he ▸ hrest)
        rw [(ih hnd.2 _ cn).1 hrest, smGetD_smSet_ne s hne]
    · intro hmem
      have hne : ¬ c = cn := fun he => hmem (he ▸ List.mem_cons_self c rest)
      have hrest : cn ∉ rest := fun hr => hmem (List.mem_cons_of_mem c hr)
      rw [(ih hnd.2 _ cn).2 hrest, smGetD_smSet_ne s hne]

/-- Helper: the outer pre-initialization loop leaves every listed curve
name bound to its start value extended by one `none` per distinct
depth. -/
theorem initFold_getD (cns : List String) (hnd : cns.Nodup) :
    ∀ (ds : List PyFloat) (s : SeriesMap) (v : List (Option PyFloat)),
      (∀ cn ∈ cns, smGetD s cn = v) →
      ∀ cn ∈ cns,
        smGetD (ds.foldl
          (fun s _ => cns.foldl (fun s c => smSet s c (smGetD s c ++ [none])) s) s) cn
          = v ++ List.replicate ds.length none := by
  intro ds
  induction ds with
  | nil =>
    intro s v hv cn hcn
    simpa using hv cn hcn
  | cons d tl ih =>
    intro s v hv cn hcn
    rw [List.foldl_cons]
    have hstep : ∀ cn ∈ cns,
        smGetD (cns.foldl (fun s c => smSet s c (smGetD s c ++ [none])) s) cn = v ++ [none] := by
      intro cn hcn
      rw [(innerFold_getD cns hnd s cn).1 hcn, hv cn hcn]
    rw [ih _ (v ++ [none]) hstep cn hcn]
    rw [List.append_assoc, List.length_cons, List.replicate_succ, List.singleton_append]

/-- Helper: after the pre-initialization loops, every requested
(pairwise-distinct) curve name is bound to a full-length all-`none`
array. -/
theorem initSeries_getD (ds : List PyFloat) (cns : List String) (hnd : cns.Nodup) :
    ∀ cn ∈ cns, smGetD (initSeries ds cns) cn = List.replicate ds.length none := by
  intro cn hcn
  unfold initSeries
  have := initFold_getD cns hnd ds [] [] (fun _ _ => rfl) cn hcn
  simpa using this

/-- Helper: with no requested curve names the pre-initialization loops
build the empty dictionary. -/
theorem initSeries_nil (ds : List PyFloat) : initSeries ds [] = [] := by
  unfold initSeries
  induction ds with
  | nil => rfl
  | cons d tl ih => exact ih

/-- Helper: the assignment loop of `get_curve_data` succeeds, preserves
the length of every listed curve name's array, and only writes cells
justified by a fetched row of that curve whose depth sits at that index
of the depth axis. -/
theorem assignRecords_spec (records : List Curve) (ds : List PyFloat) (cns : List String) :
    ∀ (rs : List Curve) (s : SeriesMap),
      (∀ r ∈ rs, r ∈ records) →
      (∀ r ∈ records, r.curve_name ∈ cns ∧ r.depth ∈ ds) →
      (∀ cn ∈ cns, (smGetD s cn).length = ds.length ∧
        ∀ (i : ℕ) (v : PyFloat), (smGetD s cn)[i]? = some (some v) →
          ∃ r, r ∈ records ∧ r.curve_name = cn ∧ ds.indexOf r.depth = i) →
      ∃ s', assignRecords rs ds s = .ok s' ∧
        (∀ cn ∈ cns, (smGetD s' cn).length = ds.length ∧
          ∀ (i : ℕ) (v : PyFloat), (smGetD s' cn)[i]? = some (some v) →
            ∃ r, r ∈ records ∧ r.curve_name = cn ∧ ds.indexOf r.depth = i) := by
  intro rs
  induction rs with
  | nil => exact fun s _ _ hinv => ⟨s, rfl, hinv⟩
  | cons r rest ih =>
    intro s hrs hrec hinv
    have hr : r ∈ records := hrs r (List.mem_cons_self r rest)
    obtain ⟨hrname, hrdepth⟩ := hrec r hr
    have hlen : (smGetD s r.curve_name).length = ds.length := (hinv _ hrname).1
    have hidx : ds.indexOf r.depth < (smGetD s r.curve_name).length := by
      rw [hlen]
      exact List.indexOf_lt_length.mpr hrdepth
    unfold assignRecords
    rw [if_pos hidx]
    refine ih _ (fun x hx => hrs x (List.mem_cons_of_mem r hx)) hrec ?_
    intro cn hcn
    by_cases hceq : r.curve_name = cn
    · subst hceq
      rw [smGetD_smSet_self]
      refine ⟨by rw [List.length_set]; exact hlen, ?_⟩
      intro i v hiv
      by_cases hieq : ds.indexOf r.depth = i
      · exact ⟨r, hr, rfl, hieq⟩
      · rw [List.getElem?_set_ne hieq] at hiv
        exact (hinv _ hcn).2 i v hiv
    · rw [smGetD_smSet_ne s hceq]
      exact hinv cn hcn

/-- Helper: with a non-empty requested-name list, every fetched row's
curve name is one of the requested names. -/
theorem records_curve_name_mem (db : DB) (well_id : ℕ) (dmin dmax : PyFloat)
    (cns : List String) (hne : cns ≠ []) :
    ∀ r ∈ get_by_well_and_depth_range db well_id dmin dmax cns, r.curve_name ∈ cns := by
  intro r hr
  unfold get_by_well_and_depth_range at hr
  have hr' := (List.Perm.mem_iff (List.perm_insertionSort _ _)).mp hr
  rw [List.mem_filter] at hr'
  have hcond := hr'.2
  simp only [Bool.and_eq_true, Bool.or_eq_true] at hcond
  rcases hcond.2 with hemp | hcont
  · exact absurd (List.isEmpty_iff.mp hemp) hne
  · simpa using hcont

/-- Helper: every fetched row's depth is on the sorted distinct depth
axis built from the fetched rows. -/
theorem records_depth_mem (records : List Curve) :
    ∀ r ∈ records,
      r.depth ∈ ((records.map (fun x => x.depth)).dedup).insertionSort (fun a b => a.le b) := by
  intro r hr
  refine (List.Perm.mem_iff (List.perm_insertionSort _ _)).mpr ?_
  rw [List.mem_dedup]
  exact List.mem_map_of_mem _ hr

/-- C1 amended: for every well, depth range and non-empty
duplicate-free list of requested curve names, the pivot succeeds and
returns one entry per requested name (in request order, no key
omitted), each value array having length equal to the number of
distinct depths among the queried samples, and a present (non-`None`)
cell exists only at an index holding the depth of some fetched sample
of that curve — so every index where the curve has no sample at that
depth holds the `None` placeholder, and a requested name with no
samples at all yields a full-length all-`None` array.  (The claim as
literally stated fails for request lists with duplicated names, see the
counterexample.) -/
theorem C1_amended (db : DB) (well_id : ℕ) (curve_names : List String) (dmin dmax : PyFloat)
    (hne : curve_names ≠ []) (hnd : curve_names.Nodup)
    (hw : (WellDAO_get_by_id db well_id).isSome) :
    ∃ cd, get_curve_data db well_id curve_names dmin dmax = .ok (some cd) ∧
      cd.series.map (fun pr => pr.1) = curve_names ∧
      cd.depth.length =
        (((get_by_well_and_depth_range db well_id dmin dmax curve_names).map
          (fun r => r.depth)).dedup).length ∧
      (∀ pr ∈ cd.series, pr.2.length = cd.depth.length) ∧
      (∀ pr ∈ cd.series, ∀ (i : ℕ) (v : PyFloat), pr.2[i]? = some (some v) →
        ∃ r, r ∈ get_by_well_and_depth_range db well_id dmin dmax curve_names ∧
          r.curve_name = pr.1 ∧ cd.depth.indexOf r.depth = i) := by
  obtain ⟨w, hwf⟩ := Option.isSome_iff_exists.mp hw
  have hfacts : ∀ r ∈ get_by_well_and_depth_range db well_id dmin dmax curve_names,
      r.curve_name ∈ curve_names ∧
      r.depth ∈ (((get_by_well_and_depth_range db well_id dmin dmax curve_names).map
        (fun x => x.depth)).dedup).insertionSort (fun a b => a.le b) :=
    fun r hr => ⟨records_curve_name_mem db well_id dmin dmax curve_names hne r hr,
      records_depth_mem _ r hr⟩
  have hbase : ∀ cn ∈ curve_names,
      (smGetD (initSeries
        ((((get_by_well_and_depth_range db well_id dmin dmax curve_names).map
          (fun x => x.depth)).dedup).insertionSort (fun a b => a.le b)) curve_names) cn).length =
        ((((get_by_well_and_depth_range db well_id dmin dmax curve_names).map
          (fun x => x.depth)).dedup).insertionSort (fun a b => a.le b)).length ∧
      ∀ (i : ℕ) (v : PyFloat),
        (smGetD (initSeries
          ((((get_by_well_and_depth_range db well_id dmin dmax curve_names).map
            (fun x => x.depth)).dedup).insertionSort (fun a b => a.le b)) curve_names) cn)[i]?
          = some (some v) →
        ∃ r, r ∈ get_by_well_and_depth_range db well_id dmin dmax curve_names ∧
          r.curve_name = cn ∧
          ((((get_by_well_and_depth_range db well_id dmin dmax curve_names).map
            (fun x => x.depth)).dedup).insertionSort (fun a b => a.le b)).indexOf r.depth = i := by
    intro cn hcn
    rw [initSeries_getD _ curve_names hnd cn hcn]
    refine ⟨List.length_replicate _ _, ?_⟩
    intro i v hiv
    rw [List.getElem?_replicate] at hiv
    by_cases hin : i < ((((get_by_well_and_depth_range db well_id dmin dmax curve_names).map
        (fun x => x.depth)).dedup).insertionSort (fun a b => a.le b)).length
    · rw [if_pos hin] at hiv
      exact absurd (Option.some.inj hiv) (by simp)
    · rw [if_neg hin] at hiv
      exact Option.noConfusion hiv
  obtain ⟨s', hok, hinv⟩ := assignRecords_spec
    (get_by_well_and_depth_range db well_id dmin dmax curve_names)
    ((((get_by_well_and_depth_range db well_id dmin dmax curve_names).map
      (fun x => x.depth)).dedup).insertionSort (fun a b => a.le b))
    curve_names
    (get_by_well_and_depth_range db well_id dmin dmax curve_names)
    (initSeries ((((get_by_well_and_depth_range db well_id dmin dmax curve_names).map
      (fun x => x.depth)).dedup).insertionSort (fun a b => a.le b)) curve_names)
    (fun r h => h) hfacts hbase
  refine Exists.intro
    (CurveData.mk
      ((((get_by_well_and_depth_range db well_id dmin dmax curve_names).map
        (fun x => x.depth)).dedup).insertionSort (fun a b => a.le b))
      (curve_names.map (fun cn => (cn, (smGet? s' cn).getD
        (List.replicate ((((get_by_well_and_depth_range db well_id dmin dmax curve_names).map
          (fun x => x.depth)).dedup).insertionSort (fun a b => a.le b)).length none)))))
    ⟨?_, ?_, ?_, ?_, ?_⟩
  · simp only [get_curve_data, hwf]
    rw [hok]
  · rw [List.map_map]
    exact List.map_id' curve_names
  · exact (List.perm_insertionSort _ _).length_eq
  · intro pr hpr
    obtain ⟨cn, hcn, hpreq⟩ := List.mem_map.mp hpr
    subst hpreq
    cases hg : smGet? s' cn with
    | none => simp [hg, List.length_replicate]
    | some a =>
      have ha : smGetD s' cn = a := by
        unfold smGetD
        rw [hg]
        rfl
      have hl := (hinv cn hcn).1
      rw [ha] at hl
      simp [hg, hl]
  · intro pr hpr i v hiv
    obtain ⟨cn, hcn, hpreq⟩ := List.mem_map.mp hpr
    subst hpreq
    cases hg : smGet? s' cn with
    | none =>
      rw [hg] at hiv
      simp only [Option.getD_none, List.getElem?_replicate] at hiv
      by_cases hin : i < ((((get_by_well_and_depth_range db well_id dmin dmax curve_names).map
          (fun x => x.depth)).dedup).insertionSort (fun a b => a.le b)).length
      · rw [if_pos hin] at hiv
        exact absurd (Option.some.inj hiv) (by simp)
      · rw [if_neg hin] at hiv
        exact Option.noConfusion hiv
    | some a =>
      have ha : smGetD s' cn = a := by
        unfold smGetD
        rw [hg]
        rfl
      rw [hg] at hiv
      simp only [Option.getD_some] at hiv
      rw [← ha] at hiv
      exact (hinv cn hcn).2 i v hiv

/-- C1 counterexample: with the duplicated request list ["GR", "GR"]
and one sample at one depth, the pivot returns, the series keys are as
requested, but the value arrays have length 2 while the number of
distinct depths is 1 — the pre-initialization loop appended one `None`
per occurrence of the name per depth — refuting the claim as stated for
arbitrary (non-distinct) request lists. -/
theorem C1_counterexample :
    get_curve_data exDB1 1 ["GR", "GR"] (.fin 0) (.fin 10) = .ok (some exC1cd) ∧
    exC1cd.depth.length = 1 ∧
    ∃ pr ∈ exC1cd.series, pr.2.length ≠ exC1cd.depth.length := by
  refine ⟨by decide, by decide, by decide⟩

/-- C1 witness: the amended theorem applied to the concrete `exDB1`
query with the duplicate-free request list ["GR"]. -/
theorem C1_amended_witness :
    ∃ cd, get_curve_data exDB1 1 ["GR"] (.fin 0) (.fin 10) = .ok (some cd) ∧
      cd.series.map (fun pr => pr.1) = ["GR"] ∧
      cd.depth.length =
        (((get_by_well_and_depth_range exDB1 1 (.fin 0) (.fin 10) ["GR"]).map
          (fun r => r.depth)).dedup).length ∧
      (∀ pr ∈ cd.series, pr.2.length = cd.depth.length) ∧
      (∀ pr ∈ cd.series, ∀ (i : ℕ) (v : PyFloat), pr.2[i]? = some (some v) →
        ∃ r, r ∈ get_by_well_and_depth_range exDB1 1 (.fin 0) (.fin 10) ["GR"] ∧
          r.curve_name = pr.1 ∧ cd.depth.indexOf r.depth = i) :=
  C1_amended exDB1 1 ["GR"] (.fin 0) (.fin 10) (by decide) (by decide) (by decide)

/-- C10: calling the visualization pivot with an EMPTY curve-name list
for an existing well that has at least one sample in the depth range
raises `IndexError`: the falsy list disables the name filter so rows
come back, but the per-name arrays were only pre-initialized for the
(zero) provided names, so the first row assignment indexes an empty
list. -/
theorem C10_empty_names_index_error (db : DB) (well_id : ℕ) (dmin dmax : PyFloat)
    (hw : (WellDAO_get_by_id db well_id).isSome)
    (hs : get_by_well_and_depth_range db well_id dmin dmax [] ≠ []) :
    get_curve_data db well_id [] dmin dmax = .error .indexError := by
  obtain ⟨w, hwf⟩ := Option.isSome_iff_exists.mp hw
  simp only [get_curve_data, hwf]
  rcases hrec : get_by_well_and_depth_range db well_id dmin dmax [] with _ | ⟨r, rest⟩
  · exact absurd hrec hs
  · rw [initSeries_nil]
    unfold assignRecords
    have hcur : smGetD [] r.curve_name = [] := rfl
    rw [hcur]
    simp

/-- C10 witness: the theorem applied to the concrete database `exDB1`,
whose well 1 has a sample at depth 5 inside the range [0, 10]. -/
theorem C10_empty_names_index_error_witness :
    get_curve_data exDB1 1 [] (.fin 0) (.fin 10) = .error .indexError :=
  C10_empty_names_index_error exDB1 1 (.fin 0) (.fin 10) (by decide) (by decide)
